import Mathlib

/-!
Verification development for the Chip8Emu interpreter (src/src/emu.rs and
its submodules display.rs, keyboard.rs, memory.rs).

Shallow embedding conventions:
* machine integers (u8, u16, u64) are `Nat` with explicit wrapping
  (`% 256`, `% 65536`, `% 2^64`) exactly where Rust release builds wrap;
* 64-bit shift amounts are reduced `% 64`, as Rust release builds mask the
  shift distance of an overlong shift;
* operations that panic in every build mode (out-of-bounds array or slice
  indexing, and integer over/underflow whose wrapped value immediately
  indexes out of bounds) return `Option.none`;
* arrays (`[u8; N]`, `[u16; N]`, `[u64; 32]`) are functions `Nat → Nat`
  updated pointwise; channels (mpsc) are explicit FIFO lists.
-/

set_option maxHeartbeats 1600000

/-- Pointwise update of a `Nat → Nat` array, modelling `arr[k] = v`. -/
def update (f : Nat → Nat) (k v : Nat) : Nat → Nat :=
  fun a => if a = k then v else f a

theorem update_same (f : Nat → Nat) (k v : Nat) : update f k v k = v := by
  simp [update]

theorem update_other (f : Nat → Nat) (k v a : Nat) (h : a ≠ k) :
    update f k v a = f a := by
  simp [update, h]

theorem update_self (f : Nat → Nat) (k : Nat) : update f k (f k) = f := by
  funext a
  by_cases h : a = k <;> simp [update, h]

/-- All available instruction types for the chip-8 cpu (enum InstructionType). -/
inductive InstructionType where
  | Call
  | DispClr
  | FlowRet
  | FlowJmp
  | FlowCall
  | CondEqL
  | CondNoEqL
  | CondEqRg
  | RegConst
  | RegAdd
  | Assign
  | BitOr
  | BitAnd
  | BitXor
  | MathAdd
  | MathSub
  | BitShiftR
  | InvertSub
  | BitShiftL
  | CondNoEqRg
  | SetPoint
  | FlowJmpV0
  | RNG
  | DispDraw
  | CondKey
  | CondNotKey
  | DelTimrGet
  | WaitKey
  | DelTimrSet
  | SndTimrSet
  | PointAdd
  | PointChar
  | BCDStore
  | RegDmp
  | RegLoad
  | StopExecution
deriving DecidableEq

/-- A decoded instruction: the type plus the optional operand fields,
mirroring struct Instruction of emu.rs. -/
structure Instruction where
  insttype : InstructionType
  nnn : Option Nat
  nn : Option Nat
  n : Option Nat
  x : Option Nat
  y : Option Nat
deriving DecidableEq

/-- Chip8Emu::decode, translated arm for arm from the Rust match on the four
nibbles of a 16-bit instruction word (the argument is a u16 value, below
65536).  The Rust source pattern-matches the nibble array against literal
patterns in this exact order; that sequential first-match semantics is
rendered as a chain of conditionals.  The x operand is always the second
nibble n2 and the y operand the third nibble n1.  Note the InvertSub arm:
the source pattern tests the low nibble against 0xE7 = 231, exactly as
written in emu.rs (a 4-bit value can never equal 0xE7). -/
def decode (inst : Nat) : Instruction :=
  let n3 := inst >>> 12
  let n2 := inst >>> 8 &&& 0xF
  let n1 := inst >>> 4 &&& 0xF
  let n0 := inst &&& 0xF
  if n3 = 0x0 ∧ n2 = 0x0 ∧ n1 = 0xE ∧ n0 = 0x0 then
    ⟨InstructionType.DispClr, none, none, none, none, none⟩
  else if n3 = 0x0 ∧ n2 = 0x0 ∧ n1 = 0xE ∧ n0 = 0xE then
    ⟨InstructionType.FlowRet, none, none, none, none, none⟩
  else if n3 = 0x0 then
    ⟨InstructionType.Call, some (inst &&& 0xFFF), none, none, none, none⟩
  else if n3 = 0x1 then
    ⟨InstructionType.FlowJmp, some (inst &&& 0xFFF), none, none, none, none⟩
  else if n3 = 0x2 then
    ⟨InstructionType.FlowCall, some (inst &&& 0xFFF), none, none, none, none⟩
  else if n3 = 0x3 then
    ⟨InstructionType.CondEqL, none, some (inst &&& 0xFF), none, some n2, none⟩
  else if n3 = 0x4 then
    ⟨InstructionType.CondNoEqL, none, some (inst &&& 0xFF), none, some n2, none⟩
  else if n3 = 0x5 ∧ n0 = 0x0 then
    ⟨InstructionType.CondEqRg, none, none, none, some n2, some n1⟩
  else if n3 = 0x6 then
    ⟨InstructionType.RegConst, none, some (inst &&& 0xFF), none, some n2, none⟩
  else if n3 = 0x7 then
    ⟨InstructionType.RegAdd, none, some (inst &&& 0xFF), none, some n2, none⟩
  else if n3 = 0x8 ∧ n0 = 0x0 then
    ⟨InstructionType.Assign, none, none, none, some n2, some n1⟩
  else if n3 = 0x8 ∧ n0 = 0x1 then
    ⟨InstructionType.BitOr, none, none, none, some n2, some n1⟩
  else if n3 = 0x8 ∧ n0 = 0x2 then
    ⟨InstructionType.BitAnd, none, none, none, some n2, some n1⟩
  else if n3 = 0x8 ∧ n0 = 0x3 then
    ⟨InstructionType.BitXor, none, none, none, some n2, some n1⟩
  else if n3 = 0x8 ∧ n0 = 0x4 then
    ⟨InstructionType.MathAdd, none, none, none, some n2, some n1⟩
  else if n3 = 0x8 ∧ n0 = 0x5 then
    ⟨InstructionType.MathSub, none, none, none, some n2, some n1⟩
  else if n3 = 0x8 ∧ n0 = 0x6 then
    ⟨InstructionType.BitShiftR, none, none, none, some n2, some n1⟩
  else if n3 = 0x8 ∧ n0 = 0xE7 then
    ⟨InstructionType.InvertSub, none, none, none, some n2, some n1⟩
  else if n3 = 0x8 ∧ n0 = 0xE then
    ⟨InstructionType.BitShiftL, none, none, none, some n2, some n1⟩
  else if n3 = 0x9 ∧ n0 = 0x0 then
    ⟨InstructionType.CondNoEqRg, none, none, none, some n2, some n1⟩
  else if n3 = 0xA then
    ⟨InstructionType.SetPoint, some (inst &&& 0xFFF), none, none, none, none⟩
  else if n3 = 0xB then
    ⟨InstructionType.FlowJmpV0, some (inst &&& 0xFFF), none, none, none, none⟩
  else if n3 = 0xC then
    ⟨InstructionType.RNG, none, some (inst &&& 0xFF), none, some n2, none⟩
  else if n3 = 0xD then
    ⟨InstructionType.DispDraw, none, none, some n0, some n2, some n1⟩
  else if n3 = 0xE ∧ n1 = 0x9 ∧ n0 = 0xE then
    ⟨InstructionType.CondKey, none, none, none, some n2, none⟩
  else if n3 = 0xE ∧ n1 = 0xA ∧ n0 = 0x1 then
    ⟨InstructionType.CondNotKey, none, none, none, some n2, none⟩
  else if n3 = 0xF ∧ n1 = 0x0 ∧ n0 = 0x7 then
    ⟨InstructionType.DelTimrGet, none, none, none, some n2, none⟩
  else if n3 = 0xF ∧ n1 = 0x0 ∧ n0 = 0xA then
    ⟨InstructionType.WaitKey, none, none, none, some n2, none⟩
  else if n3 = 0xF ∧ n1 = 0x1 ∧ n0 = 0x5 then
    ⟨InstructionType.DelTimrSet, none, none, none, some n2, none⟩
  else if n3 = 0xF ∧ n1 = 0x1 ∧ n0 = 0x8 then
    ⟨InstructionType.SndTimrSet, none, none, none, some n2, none⟩
  else if n3 = 0xF ∧ n1 = 0x1 ∧ n0 = 0xE then
    ⟨InstructionType.PointAdd, none, none, none, some n2, none⟩
  else if n3 = 0xF ∧ n1 = 0x2 ∧ n0 = 0x9 then
    ⟨InstructionType.PointChar, none, none, none, some n2, none⟩
  else if n3 = 0xF ∧ n1 = 0x3 ∧ n0 = 0x3 then
    ⟨InstructionType.BCDStore, none, none, none, some n2, none⟩
  else if n3 = 0xF ∧ n1 = 0x5 ∧ n0 = 0x5 then
    ⟨InstructionType.RegDmp, none, none, none, some n2, none⟩
  else if n3 = 0xF ∧ n1 = 0x6 ∧ n0 = 0x5 then
    ⟨InstructionType.RegLoad, none, none, none, some n2, none⟩
  else
    ⟨InstructionType.StopExecution, none, none, none, none, none⟩

/-- The instruction produced by the fallback arm of decode: the halt sentinel. -/
def haltInstruction : Instruction :=
  ⟨InstructionType.StopExecution, none, none, none, none, none⟩

/-- Whether a 16-bit word matches one of the known opcode forms of decode:
the same nibble conditions as decode, in the same order, with every known
arm mapped to true and the fallback arm mapped to false. -/
def knownPattern (inst : Nat) : Bool :=
  let n3 := inst >>> 12
  let n2 := inst >>> 8 &&& 0xF
  let n1 := inst >>> 4 &&& 0xF
  let n0 := inst &&& 0xF
  if n3 = 0x0 ∧ n2 = 0x0 ∧ n1 = 0xE ∧ n0 = 0x0 then true
  else if n3 = 0x0 ∧ n2 = 0x0 ∧ n1 = 0xE ∧ n0 = 0xE then true
  else if n3 = 0x0 then true
  else if n3 = 0x1 then true
  else if n3 = 0x2 then true
  else if n3 = 0x3 then true
  else if n3 = 0x4 then true
  else if n3 = 0x5 ∧ n0 = 0x0 then true
  else if n3 = 0x6 then true
  else if n3 = 0x7 then true
  else if n3 = 0x8 ∧ n0 = 0x0 then true
  else if n3 = 0x8 ∧ n0 = 0x1 then true
  else if n3 = 0x8 ∧ n0 = 0x2 then true
  else if n3 = 0x8 ∧ n0 = 0x3 then true
  else if n3 = 0x8 ∧ n0 = 0x4 then true
  else if n3 = 0x8 ∧ n0 = 0x5 then true
  else if n3 = 0x8 ∧ n0 = 0x6 then true
  else if n3 = 0x8 ∧ n0 = 0xE7 then true
  else if n3 = 0x8 ∧ n0 = 0xE then true
  else if n3 = 0x9 ∧ n0 = 0x0 then true
  else if n3 = 0xA then true
  else if n3 = 0xB then true
  else if n3 = 0xC then true
  else if n3 = 0xD then true
  else if n3 = 0xE ∧ n1 = 0x9 ∧ n0 = 0xE then true
  else if n3 = 0xE ∧ n1 = 0xA ∧ n0 = 0x1 then true
  else if n3 = 0xF ∧ n1 = 0x0 ∧ n0 = 0x7 then true
  else if n3 = 0xF ∧ n1 = 0x0 ∧ n0 = 0xA then true
  else if n3 = 0xF ∧ n1 = 0x1 ∧ n0 = 0x5 then true
  else if n3 = 0xF ∧ n1 = 0x1 ∧ n0 = 0x8 then true
  else if n3 = 0xF ∧ n1 = 0x1 ∧ n0 = 0xE then true
  else if n3 = 0xF ∧ n1 = 0x2 ∧ n0 = 0x9 then true
  else if n3 = 0xF ∧ n1 = 0x3 ∧ n0 = 0x3 then true
  else if n3 = 0xF ∧ n1 = 0x5 ∧ n0 = 0x5 then true
  else if n3 = 0xF ∧ n1 = 0x6 ∧ n0 = 0x5 then true
  else false

example : (decode 0x00E0).insttype = InstructionType.DispClr := by decide
example : (decode 0x8125).insttype = InstructionType.MathSub := by decide
example : (decode 0x8127).insttype = InstructionType.StopExecution := by decide
example : (decode 0x812E).insttype = InstructionType.BitShiftL := by decide
example : knownPattern 0x8127 = false := by decide
example : (decode 0xD015).n = some 5 := by decide

theorem decode_unknown (w : Nat) (h : knownPattern w = false) :
    decode w = haltInstruction := by
  unfold knownPattern at h
  unfold decode haltInstruction
  dsimp only at h ⊢
  by_cases c0 : w >>> 12 = 0x0 ∧ w >>> 8 &&& 0xF = 0x0 ∧ w >>> 4 &&& 0xF = 0xE ∧ w &&& 0xF = 0x0
  · rw [if_pos c0] at h; exact Bool.noConfusion h
  rw [if_neg c0] at h; rw [if_neg c0]
  by_cases c1 : w >>> 12 = 0x0 ∧ w >>> 8 &&& 0xF = 0x0 ∧ w >>> 4 &&& 0xF = 0xE ∧ w &&& 0xF = 0xE
  · rw [if_pos c1] at h; exact Bool.noConfusion h
  rw [if_neg c1] at h; rw [if_neg c1]
  by_cases c2 : w >>> 12 = 0x0
  · rw [if_pos c2] at h; exact Bool.noConfusion h
  rw [if_neg c2] at h; rw [if_neg c2]
  by_cases c3 : w >>> 12 = 0x1
  · rw [if_pos c3] at h; exact Bool.noConfusion h
  rw [if_neg c3] at h; rw [if_neg c3]
  by_cases c4 : w >>> 12 = 0x2
  · rw [if_pos c4] at h; exact Bool.noConfusion h
  rw [if_neg c4] at h; rw [if_neg c4]
  by_cases c5 : w >>> 12 = 0x3
  · rw [if_pos c5] at h; exact Bool.noConfusion h
  rw [if_neg c5] at h; rw [if_neg c5]
  by_cases c6 : w >>> 12 = 0x4
  · rw [if_pos c6] at h; exact Bool.noConfusion h
  rw [if_neg c6] at h; rw [if_neg c6]
  by_cases c7 : w >>> 12 = 0x5 ∧ w &&& 0xF = 0x0
  · rw [if_pos c7] at h; exact Bool.noConfusion h
  rw [if_neg c7] at h; rw [if_neg c7]
  by_cases c8 : w >>> 12 = 0x6
  · rw [if_pos c8] at h; exact Bool.noConfusion h
  rw [if_neg c8] at h; rw [if_neg c8]
  by_cases c9 : w >>> 12 = 0x7
  · rw [if_pos c9] at h; exact Bool.noConfusion h
  rw [if_neg c9] at h; rw [if_neg c9]
  by_cases c10 : w >>> 12 = 0x8 ∧ w &&& 0xF = 0x0
  · rw [if_pos c10] at h; exact Bool.noConfusion h
  rw [if_neg c10] at h; rw [if_neg c10]
  by_cases c11 : w >>> 12 = 0x8 ∧ w &&& 0xF = 0x1
  · rw [if_pos c11] at h; exact Bool.noConfusion h
  rw [if_neg c11] at h; rw [if_neg c11]
  by_cases c12 : w >>> 12 = 0x8 ∧ w &&& 0xF = 0x2
  · rw [if_pos c12] at h; exact Bool.noConfusion h
  rw [if_neg c12] at h; rw [if_neg c12]
  by_cases c13 : w >>> 12 = 0x8 ∧ w &&& 0xF = 0x3
  · rw [if_pos c13] at h; exact Bool.noConfusion h
  rw [if_neg c13] at h; rw [if_neg c13]
  by_cases c14 : w >>> 12 = 0x8 ∧ w &&& 0xF = 0x4
  · rw [if_pos c14] at h; exact Bool.noConfusion h
  rw [if_neg c14] at h; rw [if_neg c14]
  by_cases c15 : w >>> 12 = 0x8 ∧ w &&& 0xF = 0x5
  · rw [if_pos c15] at h; exact Bool.noConfusion h
  rw [if_neg c15] at h; rw [if_neg c15]
  by_cases c16 : w >>> 12 = 0x8 ∧ w &&& 0xF = 0x6
  · rw [if_pos c16] at h; exact Bool.noConfusion h
  rw [if_neg c16] at h; rw [if_neg c16]
  by_cases c17 : w >>> 12 = 0x8 ∧ w &&& 0xF = 0xE7
  · rw [if_pos c17] at h; exact Bool.noConfusion h
  rw [if_neg c17] at h; rw [if_neg c17]
  by_cases c18 : w >>> 12 = 0x8 ∧ w &&& 0xF = 0xE
  · rw [if_pos c18] at h; exact Bool.noConfusion h
  rw [if_neg c18] at h; rw [if_neg c18]
  by_cases c19 : w >>> 12 = 0x9 ∧ w &&& 0xF = 0x0
  · rw [if_pos c19] at h; exact Bool.noConfusion h
  rw [if_neg c19] at h; rw [if_neg c19]
  by_cases c20 : w >>> 12 = 0xA
  · rw [if_pos c20] at h; exact Bool.noConfusion h
  rw [if_neg c20] at h; rw [if_neg c20]
  by_cases c21 : w >>> 12 = 0xB
  · rw [if_pos c21] at h; exact Bool.noConfusion h
  rw [if_neg c21] at h; rw [if_neg c21]
  by_cases c22 : w >>> 12 = 0xC
  · rw [if_pos c22] at h; exact Bool.noConfusion h
  rw [if_neg c22] at h; rw [if_neg c22]
  by_cases c23 : w >>> 12 = 0xD
  · rw [if_pos c23] at h; exact Bool.noConfusion h
  rw [if_neg c23] at h; rw [if_neg c23]
  by_cases c24 : w >>> 12 = 0xE ∧ w >>> 4 &&& 0xF = 0x9 ∧ w &&& 0xF = 0xE
  · rw [if_pos c24] at h; exact Bool.noConfusion h
  rw [if_neg c24] at h; rw [if_neg c24]
  by_cases c25 : w >>> 12 = 0xE ∧ w >>> 4 &&& 0xF = 0xA ∧ w &&& 0xF = 0x1
  · rw [if_pos c25] at h; exact Bool.noConfusion h
  rw [if_neg c25] at h; rw [if_neg c25]
  by_cases c26 : w >>> 12 = 0xF ∧ w >>> 4 &&& 0xF = 0x0 ∧ w &&& 0xF = 0x7
  · rw [if_pos c26] at h; exact Bool.noConfusion h
  rw [if_neg c26] at h; rw [if_neg c26]
  by_cases c27 : w >>> 12 = 0xF ∧ w >>> 4 &&& 0xF = 0x0 ∧ w &&& 0xF = 0xA
  · rw [if_pos c27] at h; exact Bool.noConfusion h
  rw [if_neg c27] at h; rw [if_neg c27]
  by_cases c28 : w >>> 12 = 0xF ∧ w >>> 4 &&& 0xF = 0x1 ∧ w &&& 0xF = 0x5
  · rw [if_pos c28] at h; exact Bool.noConfusion h
  rw [if_neg c28] at h; rw [if_neg c28]
  by_cases c29 : w >>> 12 = 0xF ∧ w >>> 4 &&& 0xF = 0x1 ∧ w &&& 0xF = 0x8
  · rw [if_pos c29] at h; exact Bool.noConfusion h
  rw [if_neg c29] at h; rw [if_neg c29]
  by_cases c30 : w >>> 12 = 0xF ∧ w >>> 4 &&& 0xF = 0x1 ∧ w &&& 0xF = 0xE
  · rw [if_pos c30] at h; exact Bool.noConfusion h
  rw [if_neg c30] at h; rw [if_neg c30]
  by_cases c31 : w >>> 12 = 0xF ∧ w >>> 4 &&& 0xF = 0x2 ∧ w &&& 0xF = 0x9
  · rw [if_pos c31] at h; exact Bool.noConfusion h
  rw [if_neg c31] at h; rw [if_neg c31]
  by_cases c32 : w >>> 12 = 0xF ∧ w >>> 4 &&& 0xF = 0x3 ∧ w &&& 0xF = 0x3
  · rw [if_pos c32] at h; exact Bool.noConfusion h
  rw [if_neg c32] at h; rw [if_neg c32]
  by_cases c33 : w >>> 12 = 0xF ∧ w >>> 4 &&& 0xF = 0x5 ∧ w &&& 0xF = 0x5
  · rw [if_pos c33] at h; exact Bool.noConfusion h
  rw [if_neg c33] at h; rw [if_neg c33]
  by_cases c34 : w >>> 12 = 0xF ∧ w >>> 4 &&& 0xF = 0x6 ∧ w &&& 0xF = 0x5
  · rw [if_pos c34] at h; exact Bool.noConfusion h
  rw [if_neg c34] at h; rw [if_neg c34]

/-- C2: decode is total: for every 16-bit word in [0, 65535] it returns
exactly one instruction value, and every bit pattern matching no known
opcode form yields the halt sentinel (StopExecution), never a failure. -/
theorem decode_total (w : Nat) (_hw : w < 65536) :
    (∃! i : Instruction, decode w = i) ∧
      (knownPattern w = false → decode w = haltInstruction) :=
  ⟨⟨decode w, rfl, fun _ h => h.symm⟩, fun h => decode_unknown w h⟩

theorem decode_total_witness :
    (∃! i : Instruction, decode 0x8127 = i) ∧
      (knownPattern 0x8127 = false → decode 0x8127 = haltInstruction) :=
  decode_total 0x8127 (by norm_num)

/-- C3: refuted on the code: every word of the shape 0x8XY7 decodes to the
halt sentinel (StopExecution), not to the inverted-subtract instruction.
The InvertSub arm of decode tests the low nibble against 0xE7 = 231, which
a 4-bit value can never equal, so the arm is unreachable and 0x8XY7 falls
through to the fallback arm.  This contradicts the enum documentation
(InvertSub, with its MathSub-style execute arm) and the spec's list of the
36 forms, so it is a bug in the code. -/
theorem invertsub_arm_unreachable :
    ∀ x, x < 16 → ∀ y, y < 16 →
      (decode (0x8007 + x * 0x100 + y * 0x10)).insttype =
        InstructionType.StopExecution := by decide

theorem invertsub_arm_unreachable_witness :
    (decode 0x8127).insttype = InstructionType.StopExecution :=
  invertsub_arm_unreachable 1 (by decide) 2 (by decide)

/-- The two commands a display subscriber can receive (enum DisplayCmd of
display.rs): a changed region (the new row byte values plus the origin
coordinates) or a clear. -/
inductive DisplayCmd where
  | Change : List Nat → Nat → Nat → DisplayCmd
  | Clear : DisplayCmd
deriving DecidableEq

/-- A sprite: binary row data plus location (struct Sprite of display.rs). -/
structure Sprite where
  data : List Nat
  x : Nat
  y : Nat

/-- The screen of the emulator: 32 rows of 64 pixels, one u64 word per row
(bit 63 is the leftmost pixel of a row), plus the subscriber channels.
Each subscriber channel is modelled as the list of commands sent to it so
far, in order (the Rust Vec of mpsc Senders). -/
structure Display where
  buffer : Nat → Nat
  changes : List (List DisplayCmd)

/-- Display::new: all-zero buffer, no subscribers. -/
def Display.new : Display := ⟨fun _ => 0, []⟩

/-- The row loop of Display::draw, in source order: rows whose vertical
position reaches past row 31 stop the loop; each remaining row is widened
to a u64 positioned at column x (left shift by 56 - x when x <= 56, else
right shift by x - 56; u64 shift distances are masked modulo 64 as in Rust
release builds), the collision accumulator is or-ed with the overlap test
against the old row, the row is xor-ed into the buffer, and the new row
byte at that position is appended to the outgoing change list. -/
def drawLoop (buffer : Nat → Nat) (x y index : Nat) (updated : Bool)
    (changes : List Nat) : List Nat → (Nat → Nat) × Bool × List Nat
  | [] => (buffer, updated, changes)
  | row :: rest =>
    if 32 ≤ y + index then (buffer, updated, changes)
    else
      let buf_row :=
        if x ≤ 56 then (row <<< (56 - x)) % 2 ^ 64
        else row >>> ((x - 56) % 64)
      let collided := decide (0 < buffer (y + index) &&& buf_row)
      let buffer' := update buffer (y + index) (buffer (y + index) ^^^ buf_row)
      let change :=
        if x ≤ 56 then (buffer' (y + index) >>> (56 - x)) &&& 0xFF
        else ((buffer' (y + index) <<< ((x - 56) % 64)) % 2 ^ 64) &&& 0xFF
      drawLoop buffer' x y (index + 1) (updated || collided) (changes ++ [change]) rest

/-- Display::draw: blits the sprite rows into the buffer via XOR, then
broadcasts one Change command (the collected row bytes plus the sprite
origin) to every subscriber, and returns the collision flag.  The Rust
function returns Ok(updated) on every path, and send failures to
torn-down subscribers are silently swallowed, so no failure is modelled. -/
def Display.draw (d : Display) (s : Sprite) : Display × Bool :=
  let r := drawLoop d.buffer s.x s.y 0 false [] s.data
  (⟨r.1, d.changes.map (fun tx => tx ++ [DisplayCmd.Change r.2.2 s.x s.y])⟩, r.2.1)

/-- Display::clear: zeroes the buffer and broadcasts Clear to every
subscriber. -/
def Display.clear (d : Display) : Display :=
  ⟨fun _ => 0, d.changes.map (fun tx => tx ++ [DisplayCmd.Clear])⟩

/-- Keyboard state (keyboard.rs): the currently pressed key slot plus the
pending key-event channel, modelled as the FIFO list of key codes sent by
the external producer and not yet consumed. -/
structure Keyboard where
  pressed_key : Nat
  queue : List Nat
deriving DecidableEq

/-- Keyboard::new: pressed_key starts at the no-key sentinel 0x10 with an
empty event queue. -/
def Keyboard.new : Keyboard := ⟨0x10, []⟩

/-- Keyboard::recieve_key: non-blocking try_recv — records the oldest
queued key event if any, else the no-key sentinel 0x10.  The
disconnected-channel failure is not modelled: the Keyboard owns its own
Sender, so try_recv can always report at worst Empty while the emulator
is alive. -/
def Keyboard.recieve_key (k : Keyboard) : Keyboard :=
  match k.queue with
  | [] => ⟨0x10, []⟩
  | key :: rest => ⟨key, rest⟩

/-- Keyboard::is_key_pressed. -/
def Keyboard.is_key_pressed (k : Keyboard) (key : Nat) : Bool :=
  k.pressed_key == key

/-- Keyboard::wait_for_key, exactly as written in keyboard.rs: returns the
recorded key immediately only when pressed_key > 0x10; otherwise performs
a blocking recv on the event queue — takes the next queued event, records
it and returns it, and blocks forever (modelled as none) when no event is
queued and none ever arrives. -/
def Keyboard.wait_for_key (k : Keyboard) : Option (Nat × Keyboard) :=
  if 0x10 < k.pressed_key then some (k.pressed_key, k)
  else
    match k.queue with
    | [] => none
    | key :: rest => some (key, ⟨key, rest⟩)

/-- C4: refuted on the code, which contradicts its own sentinel design (a
code bug).  With a valid key 5 (in range 0-15) already recorded as pressed
and event 9 queued, wait_for_key does not return the recorded key 5
immediately and does consume the queued event: the immediate-return guard
tests pressed_key > 0x10, which no valid key code 0-15 satisfies, so the
call blocks on recv and returns the queued 9 — and blocks forever when
nothing is queued.  Only out-of-range slot values such as 0x11 are
returned immediately.  Keyboard::new and recieve_key use 0x10 as the
no-key sentinel, so the intended guard is pressed_key < 0x10. -/
theorem wait_for_key_ignores_recorded_key :
    Keyboard.wait_for_key ⟨5, [9]⟩ = some (9, ⟨9, []⟩) ∧
    Keyboard.wait_for_key ⟨5, [9]⟩ ≠ some (5, ⟨5, [9]⟩) ∧
    Keyboard.wait_for_key ⟨5, []⟩ = none ∧
    Keyboard.wait_for_key ⟨0x11, []⟩ = some (0x11, ⟨0x11, []⟩) := by decide

/-- C5: sprite collision round trip on the display: drawing the one-row
sprite 0xFF at (0,0) on the all-zero buffer reports no collision and sets
exactly the leftmost 8 pixels of row 0 (bit 63 - c of the row word is the
pixel in column c, so columns 0-7 are set and nothing else); drawing the
identical sprite again reports a collision and returns every row of the
buffer to zero. -/
theorem sprite_collision_round_trip :
    (Display.draw Display.new ⟨[0xFF], 0, 0⟩).2 = false ∧
    (∀ c, c < 64 →
      Nat.testBit ((Display.draw Display.new ⟨[0xFF], 0, 0⟩).1.buffer 0) (63 - c) =
        decide (c < 8)) ∧
    (∀ r, r < 32 → 0 < r →
      (Display.draw Display.new ⟨[0xFF], 0, 0⟩).1.buffer r = 0) ∧
    (Display.draw (Display.draw Display.new ⟨[0xFF], 0, 0⟩).1 ⟨[0xFF], 0, 0⟩).2 = true ∧
    (∀ r, r < 32 →
      (Display.draw (Display.draw Display.new ⟨[0xFF], 0, 0⟩).1 ⟨[0xFF], 0, 0⟩).1.buffer r
        = 0) := by decide

theorem drawLoop_offscreen (x y : Nat) (hx64 : 64 ≤ x) (hx : x ≤ 119) :
    ∀ (data : List Nat), (∀ r ∈ data, r < 256) →
      ∀ (index : Nat) (buffer : Nat → Nat) (updated : Bool) (changes : List Nat),
        (drawLoop buffer x y index updated changes data).1 = buffer ∧
        (drawLoop buffer x y index updated changes data).2.1 = updated := by
  intro data
  induction data with
  | nil => intro _ index buffer updated changes; exact ⟨rfl, rfl⟩
  | cons row rest ih =>
    intro hdata index buffer updated changes
    have hrow : row < 256 := hdata row (List.mem_cons_self row rest)
    by_cases hy : 32 ≤ y + index
    · simp [drawLoop, hy]
    · have hxl : ¬ x ≤ 56 := by omega
      have hs : (x - 56) % 64 = x - 56 := Nat.mod_eq_of_lt (by omega)
      have hbr : row >>> ((x - 56) % 64) = 0 := by
        rw [hs, Nat.shiftRight_eq_div_pow]
        apply Nat.div_eq_of_lt
        calc row < 256 := hrow
          _ = 2 ^ 8 := by norm_num
          _ ≤ 2 ^ (x - 56) := Nat.pow_le_pow_right (by norm_num) (by omega)
      simp only [drawLoop, if_neg hy, if_neg hxl, hbr, Nat.xor_zero, Nat.and_zero,
        update_self, Nat.lt_irrefl, decide_False, Bool.or_false]
      exact ih (fun r hr => hdata r (List.mem_cons_of_mem row hr)) (index + 1)
        buffer updated _

/-- C8 counterexample: refutes the claim as stated.  At x = 120 (which is
at least 64) the shift distance x - 56 = 64 is masked modulo 64 to 0 in a
Rust release build, so drawing the one-row sprite 0xFF at (120, 0) on the
all-zero buffer writes 0xFF into row 0 — frame-buffer bits are modified
although x >= 64 (a debug build panics on the overlong shift instead). -/
theorem horizontal_clip_counterexample :
    (Display.draw Display.new ⟨[0xFF], 120, 0⟩).1.buffer 0 = 0xFF ∧
    (Display.draw Display.new ⟨[0xFF], 120, 0⟩).1.buffer 0 ≠ 0 := by decide

/-- C8 as amended: sprite rows are clipped, not wrapped, only while the
u64 shift distance stays in range, that is for x up to 119: for every x
with 64 <= x <= 119 and byte-valued sprite rows, draw completes, modifies
no frame-buffer bit and reports no collision.  For x >= 120 the shift
distance x - 56 reaches 64: a release build masks it modulo 64 and sprite
bits wrap back into the row (a debug build panics), as the counterexample
shows at x = 120. -/
theorem horizontal_clip_amended (d : Display) (data : List Nat) (x y : Nat)
    (hx64 : 64 ≤ x) (hx : x ≤ 119) (hdata : ∀ r ∈ data, r < 256) :
    (Display.draw d ⟨data, x, y⟩).1.buffer = d.buffer ∧
    (Display.draw d ⟨data, x, y⟩).2 = false := by
  have h := drawLoop_offscreen x y hx64 hx data hdata 0 d.buffer false []
  exact ⟨h.1, h.2⟩

theorem horizontal_clip_amended_witness :
    (Display.draw Display.new ⟨[0xFF], 64, 0⟩).1.buffer = Display.new.buffer ∧
    (Display.draw Display.new ⟨[0xFF], 64, 0⟩).2 = false :=
  horizontal_clip_amended Display.new [0xFF] 64 0 (by norm_num) (by norm_num)
    (by intro r hr; simp at hr; omega)

/-- Memory::load: writes data[i] to mem[start + i] for i = 0 .. len-1 in
order (both uses in Chip8Emu::new stay inside the 4096-byte array). -/
def Memory.load (m : Nat → Nat) (data : List Nat) (start : Nat) : Nat → Nat :=
  (List.range data.length).foldl (fun mm k => update mm (start + k) (data.getD k 0)) m

/-- The default font (DEFAULT_FONTPACK of emu.rs): 16 glyphs, 5 bytes each. -/
def DEFAULT_FONTPACK : List Nat := [
  0xF0, 0x90, 0x90, 0x90, 0xF0,
  0x20, 0x60, 0x20, 0x20, 0x70,
  0xF0, 0x10, 0xF0, 0x80, 0xF0,
  0xF0, 0x10, 0xF0, 0x10, 0xF0,
  0x90, 0x90, 0xF0, 0x10, 0x10,
  0xF0, 0x80, 0xF0, 0x10, 0xF0,
  0xF0, 0x80, 0xF0, 0x90, 0xF0,
  0xF0, 0x10, 0x20, 0x40, 0x40,
  0xF0, 0x90, 0xF0, 0x90, 0xF0,
  0xF0, 0x90, 0xF0, 0x10, 0xF0,
  0xF0, 0x90, 0xF0, 0x90, 0x90,
  0xE0, 0x90, 0xE0, 0x90, 0xE0,
  0xF0, 0x80, 0x80, 0x80, 0xF0,
  0xE0, 0x90, 0x90, 0x90, 0xE0,
  0xF0, 0x80, 0xF0, 0x80, 0xF0,
  0xF0, 0x80, 0xF0, 0x80, 0x80]

/-- The default font location (0x50). -/
def DEFAULT_FONTPACK_LOCATION : Nat := 0x50

/-- The CPU state (struct Chip8Emu of emu.rs): 4k RAM, the two countdown
counters of timer.rs (the derived beep flag is driven only by the clock
task, never by execute, and is omitted), display, keyboard, program
counter, the 0xFF-slot call stack with its u8 stack pointer, the sixteen
registers V0-VF and the address pointer I. -/
structure Chip8Emu where
  ram : Nat → Nat
  dtime : Nat
  stime : Nat
  display : Display
  keyboard : Keyboard
  pc : Nat
  stack : Nat → Nat
  sp : Nat
  reg : Nat → Nat
  i : Nat

/-- The stack array of Chip8Emu has 0xFF = 255 slots (indices 0 to 254). -/
def STACK_SLOTS : Nat := 0xFF

/-- Chip8Emu::new: font at 0x50, the u8 program image at 0x200, program
counter at 0x200, everything else zeroed (keyboard slot at the no-key
sentinel). -/
def Chip8Emu.new (rom : List Nat) : Chip8Emu :=
  { ram := Memory.load
      (Memory.load (fun _ => 0) DEFAULT_FONTPACK DEFAULT_FONTPACK_LOCATION)
      (rom.map (fun b => b % 256)) 0x200
    dtime := 0
    stime := 0
    display := Display.new
    keyboard := Keyboard.new
    pc := 0x200
    stack := fun _ => 0
    sp := 0
    reg := fun _ => 0
    i := 0 }

/-- The sprite-data slice ram[i ..= i + n - 1] taken by the DispDraw arm.
For n = 0 and i = 0 the u16 end index i + n - 1 underflows: a debug build
panics on the subtraction and a release build wraps it to 0xFFFF, which is
out of bounds — none either way.  Otherwise the inclusive slice is valid
exactly when its half-open form i .. i + n stays within the 4096-byte
array (for n = 0 this is the empty slice i .. i, valid whenever
i <= 4096). -/
def spriteData (ram : Nat → Nat) (i n : Nat) : Option (List Nat) :=
  if n = 0 ∧ i = 0 then none
  else if i + n ≤ 4096 then some ((List.range n).map (fun k => ram (i + k)))
  else none

/-- The RegDmp loop: for reg_id in 0 ..= x { ram[i + reg_id] = reg[reg_id] }. -/
def dmpLoop (ram reg : Nat → Nat) (i x : Nat) : Nat → Nat :=
  (List.range (x + 1)).foldl (fun m k => update m (i + k) (reg k)) ram

/-- The RegLoad loop: for reg_id in 0 ..= x { reg[reg_id] = ram[i + reg_id] }. -/
def loadLoop (reg ram : Nat → Nat) (i x : Nat) : Nat → Nat :=
  (List.range (x + 1)).foldl (fun r k => update r k (ram (i + k))) reg

/-- Chip8Emu::execute, arm for arm from emu.rs.  Every execution first
polls the keyboard (self.keyboard.recieve_key()?).  rand models the
thread-local RNG draw of the RNG arm: gen_range(0..255) yields a value in
[0, 255), modelled as rand % 255 over an arbitrary oracle value.  Arms
whose Rust code fails in every build mode return none: the halt sentinel
(Err in the source), a stack index out of bounds (FlowCall at sp = 255,
FlowRet at sp = 0, where the u8 decrement underflows), RAM indices out of
bounds, the sprite-slice underflow, and a WaitKey that blocks forever on
an empty queue.  Register and pc writes wrap as the u8/u16 stores do in a
release build; register reads feeding u8 subtraction assume byte-valued
contents (< 256), which every reachable store maintains. -/
def Chip8Emu.execute (s0 : Chip8Emu) (inst : Instruction) (rand : Nat) : Option Chip8Emu :=
  let s := { s0 with keyboard := s0.keyboard.recieve_key }
  match inst.insttype with
  | InstructionType.Call => some s
  | InstructionType.DispClr => some { s with display := s.display.clear }
  | InstructionType.FlowRet =>
    if s.sp = 0 then none
    else
      some { s with pc := s.stack (s.sp - 1),
                    stack := update s.stack (s.sp - 1) 0,
                    sp := s.sp - 1 }
  | InstructionType.FlowJmp =>
    match inst.nnn with
    | some nnn => some { s with pc := nnn }
    | none => none
  | InstructionType.FlowCall =>
    match inst.nnn with
    | some nnn =>
      if s.sp < STACK_SLOTS then
        some { s with stack := update s.stack s.sp s.pc, sp := s.sp + 1, pc := nnn }
      else none
    | none => none
  | InstructionType.CondEqL =>
    match inst.x, inst.nn with
    | some x, some nn =>
      some (if s.reg x = nn then { s with pc := (s.pc + 2) % 65536 } else s)
    | _, _ => none
  | InstructionType.CondNoEqL =>
    match inst.x, inst.nn with
    | some x, some nn =>
      some (if s.reg x ≠ nn then { s with pc := (s.pc + 2) % 65536 } else s)
    | _, _ => none
  | InstructionType.CondEqRg =>
    match inst.x, inst.y with
    | some x, some y =>
      some (if s.reg x = s.reg y then { s with pc := (s.pc + 2) % 65536 } else s)
    | _, _ => none
  | InstructionType.RegConst =>
    match inst.x, inst.nn with
    | some x, some nn => some { s with reg := update s.reg x nn }
    | _, _ => none
  | InstructionType.RegAdd =>
    match inst.x, inst.nn with
    | some x, some nn => some { s with reg := update s.reg x ((s.reg x + nn) % 256) }
    | _, _ => none
  | InstructionType.Assign =>
    match inst.x, inst.y with
    | some x, some y => some { s with reg := update s.reg x (s.reg y) }
    | _, _ => none
  | InstructionType.BitOr =>
    match inst.x, inst.y with
    | some x, some y => some { s with reg := update s.reg x (s.reg x ||| s.reg y) }
    | _, _ => none
  | InstructionType.BitAnd =>
    match inst.x, inst.y with
    | some x, some y => some { s with reg := update s.reg x (s.reg x &&& s.reg y) }
    | _, _ => none
  | InstructionType.BitXor =>
    match inst.x, inst.y with
    | some x, some y => some { s with reg := update s.reg x (s.reg x ^^^ s.reg y) }
    | _, _ => none
  | InstructionType.MathAdd =>
    match inst.x, inst.y with
    | some x, some y =>
      let result := s.reg x + s.reg y
      let reg1 := update s.reg 0xF ((result >>> 8) % 256)
      some { s with reg := update reg1 x (result % 256) }
    | _, _ => none
  | InstructionType.MathSub =>
    match inst.x, inst.y with
    | some x, some y =>
      let yv := s.reg y
      let reg1 := update s.reg 0xF (if yv > s.reg x then 1 else 0)
      some { s with reg := update reg1 x ((reg1 x + 256 - yv) % 256) }
    | _, _ => none
  | InstructionType.BitShiftR =>
    match inst.x with
    | some x =>
      let reg1 := update s.reg 0xF (s.reg x &&& 0x1)
      some { s with reg := update reg1 x (reg1 x >>> 1) }
    | none => none
  | InstructionType.InvertSub =>
    match inst.x, inst.y with
    | some x, some y =>
      let yv := s.reg y
      let reg1 := update s.reg 0xF (if s.reg x > yv then 1 else 0)
      some { s with reg := update reg1 x ((yv + 256 - reg1 x) % 256) }
    | _, _ => none
  | InstructionType.BitShiftL =>
    match inst.x with
    | some x =>
      let reg1 := update s.reg 0xF (s.reg x >>> 7)
      some { s with reg := update reg1 x ((reg1 x <<< 1) % 256) }
    | none => none
  | InstructionType.CondNoEqRg =>
    match inst.x, inst.y with
    | some x, some y =>
      some (if s.reg x ≠ s.reg y then { s with pc := (s.pc + 2) % 65536 } else s)
    | _, _ => none
  | InstructionType.SetPoint =>
    match inst.nnn with
    | some nnn => some { s with i := nnn }
    | none => none
  | InstructionType.FlowJmpV0 =>
    match inst.nnn with
    | some nnn => some { s with pc := (nnn + s.reg 0) % 65536 }
    | none => none
  | InstructionType.RNG =>
    match inst.x, inst.nn with
    | some x, some nn => some { s with reg := update s.reg x (rand % 255 &&& nn) }
    | _, _ => none
  | InstructionType.DispDraw =>
    match inst.x, inst.y, inst.n with
    | some x, some y, some n =>
      match spriteData s.ram s.i n with
      | some data =>
        let r := s.display.draw ⟨data, s.reg x, s.reg y⟩
        some { s with display := r.1, reg := update s.reg 0xF (if r.2 then 1 else 0) }
      | none => none
    | _, _, _ => none
  | InstructionType.CondKey =>
    match inst.x with
    | some x =>
      some (if s.keyboard.is_key_pressed (s.reg x)
        then { s with pc := (s.pc + 2) % 65536 } else s)
    | none => none
  | InstructionType.CondNotKey =>
    match inst.x with
    | some x =>
      some (if s.keyboard.is_key_pressed (s.reg x)
        then s else { s with pc := (s.pc + 2) % 65536 })
    | none => none
  | InstructionType.DelTimrGet =>
    match inst.x with
    | some x => some { s with reg := update s.reg x s.dtime }
    | none => none
  | InstructionType.WaitKey =>
    match inst.x with
    | some x =>
      match s.keyboard.wait_for_key with
      | some (key, kb) => some { s with keyboard := kb, reg := update s.reg x key }
      | none => none
    | none => none
  | InstructionType.DelTimrSet =>
    match inst.x with
    | some x => some { s with dtime := s.reg x }
    | none => none
  | InstructionType.SndTimrSet =>
    match inst.x with
    | some x => some { s with stime := s.reg x }
    | none => none
  | InstructionType.PointAdd =>
    match inst.x with
    | some x => some { s with i := (s.i + s.reg x) % 65536 }
    | none => none
  | InstructionType.PointChar =>
    match inst.x with
    | some x => some { s with i := DEFAULT_FONTPACK_LOCATION + s.reg x * 5 }
    | none => none
  | InstructionType.BCDStore =>
    match inst.x with
    | some x =>
      if s.i + 2 < 4096 then
        let v := s.reg x
        let ram1 := update s.ram (s.i + 2) (v % 10)
        let ram2 := update ram1 (s.i + 1) (v / 10 % 10)
        some { s with ram := update ram2 s.i (v / 10 / 10 % 10) }
      else none
    | none => none
  | InstructionType.RegDmp =>
    match inst.x with
    | some x =>
      if s.i + x < 4096 then some { s with ram := dmpLoop s.ram s.reg s.i x }
      else none
    | none => none
  | InstructionType.RegLoad =>
    match inst.x with
    | some x =>
      if s.i + x < 4096 then some { s with reg := loadLoop s.reg s.ram s.i x }
      else none
    | none => none
  | InstructionType.StopExecution => none

/-- Chip8Emu::fetch: reads the two bytes at pc (out of bounds for the
4096-byte RAM is a panic, so pc + 1 must be within it), combines them
big-endian and advances pc by 2 (a u16 add). -/
def Chip8Emu.fetch (s : Chip8Emu) : Option (Nat × Chip8Emu) :=
  if s.pc + 1 < 4096 then
    some ((s.ram s.pc <<< 8) + s.ram (s.pc + 1), { s with pc := (s.pc + 2) % 65536 })
  else none

/-- Chip8Emu::step: fetch, decode, execute. -/
def Chip8Emu.step (s : Chip8Emu) (rand : Nat) : Option Chip8Emu :=
  match s.fetch with
  | some (w, s1) => s1.execute (decode w) rand
  | none => none

/-- The external key producer pushing u8 key codes into the keyboard
channel between steps (the write half returned by new_keyboard_driver). -/
def injectKeys (s : Chip8Emu) (keys : List Nat) : Chip8Emu :=
  { s with keyboard :=
      ⟨s.keyboard.pressed_key, s.keyboard.queue ++ keys.map (fun b => b % 256)⟩ }

/-- The states reachable from the freshly constructed emulator by
executing instructions, with arbitrary external key input and RNG draws
interleaved. -/
inductive Reachable (rom : List Nat) : Chip8Emu → Prop where
  | init : Reachable rom (Chip8Emu.new rom)
  | step : ∀ s keys rand s', Reachable rom s →
      (injectKeys s keys).step rand = some s' → Reachable rom s'

/-- The decoded MathAdd instruction 8XY4, as decode produces it. -/
def mathAddInst (x y : Nat) : Instruction :=
  ⟨InstructionType.MathAdd, none, none, none, some x, some y⟩

/-- The decoded MathSub instruction 8XY5, as decode produces it. -/
def mathSubInst (x y : Nat) : Instruction :=
  ⟨InstructionType.MathSub, none, none, none, some x, some y⟩

example : decode 0x8124 = mathAddInst 1 2 := by decide
example : decode 0x8125 = mathSubInst 1 2 := by decide

/-- C6: add-with-carry: for byte values a = Vx, b = Vy (x a non-flag
register), executing MathAdd sets VF to 1 exactly when a + b > 255 (else
0) and the destination to (a + b) mod 256. -/
theorem math_add_carry (s : Chip8Emu) (x y rand : Nat)
    (hxf : x ≠ 0xF) (ha : s.reg x < 256) (hb : s.reg y < 256) :
    ∃ s', s.execute (mathAddInst x y) rand = some s' ∧
      s'.reg 0xF = (if 255 < s.reg x + s.reg y then 1 else 0) ∧
      s'.reg x = (s.reg x + s.reg y) % 256 := by
  refine ⟨_, rfl, ?_, ?_⟩
  · show update (update s.reg 0xF (((s.reg x + s.reg y) >>> 8) % 256)) x
      ((s.reg x + s.reg y) % 256) 0xF = _
    rw [update_other _ _ _ _ (Ne.symm hxf), update_same]
    rw [Nat.shiftRight_eq_div_pow]
    have h28 : (2 : Nat) ^ 8 = 256 := by norm_num
    rw [h28]
    split_ifs <;> omega
  · show update (update s.reg 0xF (((s.reg x + s.reg y) >>> 8) % 256)) x
      ((s.reg x + s.reg y) % 256) x = _
    rw [update_same]

theorem math_add_carry_witness :
    ∃ s', (Chip8Emu.new []).execute (mathAddInst 0 1) 0 = some s' ∧
      s'.reg 0xF = (if 255 < (Chip8Emu.new []).reg 0 + (Chip8Emu.new []).reg 1 then 1 else 0) ∧
      s'.reg 0 = ((Chip8Emu.new []).reg 0 + (Chip8Emu.new []).reg 1) % 256 :=
  math_add_carry (Chip8Emu.new []) 0 1 0 (by norm_num)
    (by norm_num [Chip8Emu.new]) (by norm_num [Chip8Emu.new])

/-- C1 as amended: the polarity is the reverse of the claim: executing
MathSub (8XY5) on byte values a = Vx (destination, x not the flag
register) and b = Vy sets VF to 1 exactly when a < b (borrow) and to 0
otherwise, and sets Vx to (a - b) mod 256 (written (a + 256 - b) mod 256
on naturals). -/
theorem math_sub_borrow_amended (s : Chip8Emu) (x y rand : Nat)
    (hxf : x ≠ 0xF) (_ha : s.reg x < 256) (_hb : s.reg y < 256) :
    ∃ s', s.execute (mathSubInst x y) rand = some s' ∧
      s'.reg 0xF = (if s.reg x < s.reg y then 1 else 0) ∧
      s'.reg x = (s.reg x + 256 - s.reg y) % 256 := by
  refine ⟨_, rfl, ?_, ?_⟩
  · show update (update s.reg 0xF (if s.reg x < s.reg y then 1 else 0)) x _ 0xF = _
    rw [update_other _ _ _ _ (Ne.symm hxf), update_same]
  · show update (update s.reg 0xF (if s.reg x < s.reg y then 1 else 0)) x
      ((update s.reg 0xF (if s.reg x < s.reg y then 1 else 0) x + 256 - s.reg y) % 256) x = _
    rw [update_same, update_other _ _ _ _ hxf]

/-- A concrete emulator state with V0 = 5 and V1 = 3 and everything else
as freshly constructed. -/
def stateV05V13 : Chip8Emu :=
  { Chip8Emu.new [] with reg := update (update (fun _ => 0) 0 5) 1 3 }

/-- C1 counterexample: refutes the claim as stated.  Executing MathSub
(8XY5) with a = V0 = 5 in the destination and b = V1 = 3 in the source:
a >= b, so the claim demands VF = 1 (no borrow), but the code leaves
VF = 0 — emu.rs sets the flag to 1 exactly when the subtrahend exceeds
the minuend (borrow), the opposite polarity. -/
theorem math_sub_claim_counterexample :
    Option.map (fun t => t.reg 0xF) (stateV05V13.execute (mathSubInst 0 1) 0) = some 0 ∧
    Option.map (fun t => t.reg 0xF) (stateV05V13.execute (mathSubInst 0 1) 0) ≠ some 1 ∧
    Option.map (fun t => t.reg 0) (stateV05V13.execute (mathSubInst 0 1) 0) = some 2 ∧
    3 ≤ (5 : Nat) := by decide

theorem math_sub_borrow_amended_witness :
    ∃ s', stateV05V13.execute (mathSubInst 0 1) 0 = some s' ∧
      s'.reg 0xF = (if stateV05V13.reg 0 < stateV05V13.reg 1 then 1 else 0) ∧
      s'.reg 0 = (stateV05V13.reg 0 + 256 - stateV05V13.reg 1) % 256 :=
  math_sub_borrow_amended stateV05V13 0 1 0 (by norm_num) (by decide) (by decide)

theorem dmpLoop_succ (ram reg : Nat → Nat) (i x : Nat) :
    dmpLoop ram reg i (x + 1) = update (dmpLoop ram reg i x) (i + (x + 1)) (reg (x + 1)) := by
  unfold dmpLoop
  rw [List.range_succ, List.foldl_append]
  rfl

theorem dmpLoop_zero (ram reg : Nat → Nat) (i : Nat) :
    dmpLoop ram reg i 0 = update ram (i + 0) (reg 0) := rfl

theorem dmpLoop_read (ram reg : Nat → Nat) (i x k : Nat) (hk : k ≤ x) :
    dmpLoop ram reg i x (i + k) = reg k := by
  induction x with
  | zero =>
    have : k = 0 := Nat.le_zero.mp hk
    subst this
    rw [dmpLoop_zero]
    exact update_same _ _ _
  | succ n ih =>
    rw [dmpLoop_succ]
    by_cases hkn : k = n + 1
    · subst hkn
      exact update_same _ _ _
    · rw [update_other _ _ _ _ (by omega : i + k ≠ i + (n + 1))]
      exact ih (by omega)

theorem loadLoop_succ (reg ram : Nat → Nat) (i x : Nat) :
    loadLoop reg ram i (x + 1) = update (loadLoop reg ram i x) (x + 1) (ram (i + (x + 1))) := by
  unfold loadLoop
  rw [List.range_succ, List.foldl_append]
  rfl

theorem loadLoop_zero (reg ram : Nat → Nat) (i : Nat) :
    loadLoop reg ram i 0 = update reg 0 (ram (i + 0)) := rfl

theorem loadLoop_read (reg ram : Nat → Nat) (i x k : Nat) (hk : k ≤ x) :
    loadLoop reg ram i x k = ram (i + k) := by
  induction x with
  | zero =>
    have : k = 0 := Nat.le_zero.mp hk
    subst this
    rw [loadLoop_zero]
    exact update_same _ _ _
  | succ n ih =>
    rw [loadLoop_succ]
    by_cases hkn : k = n + 1
    · subst hkn
      exact update_same _ _ _
    · rw [update_other _ _ _ _ (by omega : k ≠ n + 1)]
      exact ih (by omega)

/-- The decoded RegDmp instruction FX55, as decode produces it. -/
def regDmpInst (x : Nat) : Instruction :=
  ⟨InstructionType.RegDmp, none, none, none, some x, none⟩

/-- The decoded RegLoad instruction FX65, as decode produces it. -/
def regLoadInst (x : Nat) : Instruction :=
  ⟨InstructionType.RegLoad, none, none, none, some x, none⟩

example : decode 0xF355 = regDmpInst 3 := by decide
example : decode 0xF365 = regLoadInst 3 := by decide

/-- C7: register dump/load round trip: for any register file, any X in
[0,15] and any address pointer with I + X inside the 4096-byte RAM,
executing RegDmp (store V0..VX at I) and then RegLoad (read V0..VX from I)
on the emulator with its registers zeroed in between reproduces the
original values of registers 0..X exactly. -/
theorem reg_dump_load_round_trip (s : Chip8Emu) (x rand1 rand2 : Nat)
    (_hx : x ≤ 15) (hmem : s.i + x < 4096) :
    ∃ s1 s2, s.execute (regDmpInst x) rand1 = some s1 ∧
      Chip8Emu.execute { s1 with reg := fun _ => 0 } (regLoadInst x) rand2 = some s2 ∧
      ∀ k, k ≤ x → s2.reg k = s.reg k := by
  have h1 : s.execute (regDmpInst x) rand1 =
      some { s with keyboard := s.keyboard.recieve_key,
                    ram := dmpLoop s.ram s.reg s.i x } := by
    unfold Chip8Emu.execute
    dsimp only [regDmpInst]
    rw [if_pos hmem]
  have h2 : Chip8Emu.execute
      { s with keyboard := s.keyboard.recieve_key,
               ram := dmpLoop s.ram s.reg s.i x,
               reg := fun _ => 0 } (regLoadInst x) rand2 =
      some { s with keyboard := s.keyboard.recieve_key.recieve_key,
                    ram := dmpLoop s.ram s.reg s.i x,
                    reg := loadLoop (fun _ => 0) (dmpLoop s.ram s.reg s.i x) s.i x } := by
    unfold Chip8Emu.execute
    dsimp only [regLoadInst]
    rw [if_pos (show s.i + x < 4096 from hmem)]
  have h3 : ∀ k, k ≤ x →
      loadLoop (fun _ => 0) (dmpLoop s.ram s.reg s.i x) s.i x k = s.reg k := by
    intro k hk
    rw [loadLoop_read _ _ _ _ _ hk]
    exact dmpLoop_read _ _ _ _ _ hk
  exact ⟨_, _, h1, h2, h3⟩

theorem reg_dump_load_round_trip_witness :
    ∃ s1 s2, (Chip8Emu.new []).execute (regDmpInst 15) 0 = some s1 ∧
      Chip8Emu.execute { s1 with reg := fun _ => 0 } (regLoadInst 15) 0 = some s2 ∧
      ∀ k, k ≤ 15 → s2.reg k = (Chip8Emu.new []).reg k :=
  reg_dump_load_round_trip (Chip8Emu.new []) 15 0 0 (by norm_num)
    (by norm_num [Chip8Emu.new])

/-- The decoded DispDraw instruction DXYN, as decode produces it. -/
def dispDrawInst (x y n : Nat) : Instruction :=
  ⟨InstructionType.DispDraw, none, none, some n, some x, some y⟩

example : decode 0xD120 = dispDrawInst 1 2 0 := by decide

/-- A concrete emulator state whose address pointer 5000 lies outside the
4096-byte RAM (reachable via SetPoint only up to 0xFFF, but PointAdd can
push I anywhere up to 0xFFFF + 0xFF). -/
def stateI5000 : Chip8Emu := { Chip8Emu.new [] with i := 5000 }

/-- C10 counterexample: refutes the claim as stated.  With the address
pointer at 5000 — which satisfies the claim's only premiss, at least 1 —
a zero-height sprite draw does not succeed: the empty slice
ram[5000 ..= 4999] normalizes to ram[5000 .. 5000], whose start lies
beyond the 4096-byte RAM, so the slice indexing panics and the step
fails.  The pointer must additionally be at most 4096. -/
theorem draw_zero_height_counterexample :
    stateI5000.execute (dispDrawInst 0 1 0) 0 = none ∧ 1 ≤ stateI5000.i := by
  constructor
  · rfl
  · decide

/-- C10 as amended: executing a sprite draw with height nibble 0 while the
address pointer is at least 1 and at most 4096 succeeds, leaves every
frame-buffer row unchanged, sets VF to 0 (no collision), and still sends
every subscriber a Change notification carrying the empty row list at the
sprite's origin coordinates (the raw values of Vx and Vy). -/
theorem draw_zero_height_amended (s : Chip8Emu) (x y rand : Nat)
    (h1 : 1 ≤ s.i) (h2 : s.i ≤ 4096) :
    ∃ s', s.execute (dispDrawInst x y 0) rand = some s' ∧
      s'.display.buffer = s.display.buffer ∧
      s'.reg = update s.reg 0xF 0 ∧
      s'.display.changes =
        s.display.changes.map
          (fun tx => tx ++ [DisplayCmd.Change [] (s.reg x) (s.reg y)]) := by
  have hsd : spriteData s.ram s.i 0 = some [] := by
    unfold spriteData
    rw [if_neg (by omega : ¬ ((0 : Nat) = 0 ∧ s.i = 0)), if_pos (by omega : s.i + 0 ≤ 4096)]
    rfl
  have hex : s.execute (dispDrawInst x y 0) rand =
      some { s with keyboard := s.keyboard.recieve_key,
                    display := ⟨s.display.buffer,
                      s.display.changes.map
                        (fun tx => tx ++ [DisplayCmd.Change [] (s.reg x) (s.reg y)])⟩,
                    reg := update s.reg 0xF 0 } := by
    unfold Chip8Emu.execute
    dsimp only [dispDrawInst]
    rw [hsd]
    rfl
  exact ⟨_, hex, rfl, rfl, rfl⟩

/-- A concrete emulator state with the address pointer at 1. -/
def stateI1 : Chip8Emu := { Chip8Emu.new [] with i := 1 }

theorem draw_zero_height_amended_witness :
    ∃ s', stateI1.execute (dispDrawInst 0 1 0) 0 = some s' ∧
      s'.display.buffer = stateI1.display.buffer ∧
      s'.reg = update stateI1.reg 0xF 0 ∧
      s'.display.changes =
        stateI1.display.changes.map
          (fun tx => tx ++ [DisplayCmd.Change [] (stateI1.reg 0) (stateI1.reg 1)]) :=
  draw_zero_height_amended stateI1 0 1 0 (by decide) (by decide)

theorem execute_sp (s s' : Chip8Emu) (inst : Instruction) (rand : Nat)
    (h : s.execute inst rand = some s') (hsp : s.sp ≤ STACK_SLOTS) :
    s'.sp ≤ STACK_SLOTS := by
  unfold Chip8Emu.execute at h
  cases hi : inst.insttype <;> rw [hi] at h <;> dsimp only at h <;>
    (try (rcases h1 : inst.nnn with _ | nnn <;> rw [h1] at h <;> (try dsimp only at h))) <;>
    (try (rcases h2 : inst.x with _ | xv <;> rw [h2] at h <;> (try dsimp only at h))) <;>
    (try (rcases h3 : inst.y with _ | yv <;> rw [h3] at h <;> (try dsimp only at h))) <;>
    (try (rcases h4 : inst.n with _ | nv <;> rw [h4] at h <;> (try dsimp only at h))) <;>
    (try (split at h)) <;>
    first
      | exact Option.noConfusion h
      | (injection h with h; subst h;
          first
            | exact hsp
            | (split <;> exact hsp)
            | (simp only [STACK_SLOTS] at *; omega))

theorem fetch_sp (s : Chip8Emu) (w : Nat) (s1 : Chip8Emu)
    (h : s.fetch = some (w, s1)) : s1.sp = s.sp := by
  unfold Chip8Emu.fetch at h
  split at h
  · injection h with h
    injection h with hw hs
    subst hs
    rfl
  · exact Option.noConfusion h

theorem step_sp (s s' : Chip8Emu) (rand : Nat) (h : s.step rand = some s')
    (hsp : s.sp ≤ STACK_SLOTS) : s'.sp ≤ STACK_SLOTS := by
  unfold Chip8Emu.step at h
  rcases hf : s.fetch with _ | ⟨w, s1⟩ <;> rw [hf] at h <;> dsimp only at h
  · exact Option.noConfusion h
  · have := fetch_sp s w s1 hf
    exact execute_sp s1 s' (decode w) rand h (this ▸ hsp)

theorem reachable_sp (rom : List Nat) (s : Chip8Emu) (h : Reachable rom s) :
    s.sp ≤ STACK_SLOTS := by
  induction h with
  | init => exact Nat.zero_le _
  | step t keys rand t' ht hstep ih =>
    exact step_sp (injectKeys t keys) t' rand hstep ih

/-- The decoded FlowCall instruction 2NNN, as decode produces it. -/
def flowCallInst (nnn : Nat) : Instruction :=
  ⟨InstructionType.FlowCall, some nnn, none, none, none, none⟩

/-- The decoded FlowRet instruction 00EE, as decode produces it. -/
def flowRetInst : Instruction :=
  ⟨InstructionType.FlowRet, none, none, none, none, none⟩

example : decode 0x2ABC = flowCallInst 0xABC := by decide
example : decode 0x00EE = flowRetInst := by decide

/-- C9: in every state reachable from the freshly constructed emulator by
executing instructions, the stack pointer stays within the bounds of the
255-slot call stack (sp <= 255, where sp counts occupied slots); a
subroutine call that succeeds pushes the current program counter into
slot sp (which requires sp < 255; at sp = 255 the push indexes out of
bounds and the step fails instead of corrupting state) and increments the
pointer, and a return that succeeds (which requires sp > 0; at sp = 0 the
u8 decrement underflows and the step fails) decrements the pointer,
restores the program counter from the popped slot and zeroes it — neither
operation ever moves the pointer outside [0, 255]. -/
theorem stack_pointer_stays_in_bounds (rom : List Nat) (s : Chip8Emu)
    (h : Reachable rom s) :
    s.sp ≤ STACK_SLOTS ∧
    (∀ nnn rand s', s.execute (flowCallInst nnn) rand = some s' →
      s.sp < STACK_SLOTS ∧ s'.sp = s.sp + 1 ∧ s'.sp ≤ STACK_SLOTS ∧
      s'.stack s.sp = s.pc ∧ s'.pc = nnn) ∧
    (∀ rand s', s.execute flowRetInst rand = some s' →
      0 < s.sp ∧ s'.sp = s.sp - 1 ∧ s'.sp ≤ STACK_SLOTS ∧
      s'.pc = s.stack (s.sp - 1) ∧ s'.stack (s.sp - 1) = 0) := by
  refine ⟨reachable_sp rom s h, ?_, ?_⟩
  · intro nnn rand s' hex
    unfold Chip8Emu.execute at hex
    dsimp only [flowCallInst] at hex
    by_cases hc : s.sp < STACK_SLOTS
    · rw [if_pos hc] at hex
      injection hex with hex
      subst hex
      refine ⟨hc, rfl, ?_, update_same _ _ _, rfl⟩
      show s.sp + 1 ≤ STACK_SLOTS
      omega
    · rw [if_neg hc] at hex
      exact Option.noConfusion hex
  · intro rand s' hex
    have hsp := reachable_sp rom s h
    unfold Chip8Emu.execute at hex
    dsimp only [flowRetInst] at hex
    by_cases hc : s.sp = 0
    · rw [if_pos hc] at hex
      exact Option.noConfusion hex
    · rw [if_neg hc] at hex
      injection hex with hex
      subst hex
      refine ⟨by omega, rfl, ?_, rfl, update_same _ _ _⟩
      show s.sp - 1 ≤ STACK_SLOTS
      omega

theorem stack_pointer_stays_in_bounds_witness :
    (Chip8Emu.new []).sp ≤ STACK_SLOTS ∧
    (∀ nnn rand s', (Chip8Emu.new []).execute (flowCallInst nnn) rand = some s' →
      (Chip8Emu.new []).sp < STACK_SLOTS ∧ s'.sp = (Chip8Emu.new []).sp + 1 ∧
      s'.sp ≤ STACK_SLOTS ∧ s'.stack (Chip8Emu.new []).sp = (Chip8Emu.new []).pc ∧
      s'.pc = nnn) ∧
    (∀ rand s', (Chip8Emu.new []).execute flowRetInst rand = some s' →
      0 < (Chip8Emu.new []).sp ∧ s'.sp = (Chip8Emu.new []).sp - 1 ∧
      s'.sp ≤ STACK_SLOTS ∧ s'.pc = (Chip8Emu.new []).stack ((Chip8Emu.new []).sp - 1) ∧
      s'.stack ((Chip8Emu.new []).sp - 1) = 0) :=
  stack_pointer_stays_in_bounds [] (Chip8Emu.new []) Reachable.init
